import Mathlib

/-!
Verification of the real-time voice interview orchestrator.

The development shallowly embeds the TypeScript source:
* the chat route handler (tool-call guard `hasToolCall` / `shouldEnableTools`,
  the `experimental_onToolCall` handler and its follow-up request),
* the `Agent` component (call session state machine, utterance segmenter,
  speech synthesis sequencing, audio-slice forwarding).

Strings that only ever face `==` checks are Lean `String`s; strings that are
trimmed and concatenated character-wise (the segmenter's accumulator) are
embedded as `List Char`.
-/

/-! ## Completion orchestrator: tool-call guard (chat route handler) -/

/-- A chat message as the route handler sees it: `role`, `content`, and the
optional `tool_calls` array (names of the called functions).  `none` models a
message without a `tool_calls` field. -/
structure ChatMsg where
  role : String
  content : String
  tool_calls : Option (List String)
deriving DecidableEq

/-- `hasToolCall` from the route handler: scans the incoming history for an
assistant message whose `tool_calls` contain `generate_interview`.
(JS truthiness of `m.tool_calls` is `Option.isSome`; `.some(...)` is `any`.) -/
def hasToolCall (messages : List ChatMsg) : Bool :=
  messages.any fun m =>
    m.role == "assistant" &&
    (match m.tool_calls with
     | none => false
     | some tcs => tcs.any (fun tc => tc == "generate_interview"))

/-- `shouldEnableTools` from the route handler: tools are offered only in
`generate` (SETUP) mode and only when no prior tool call is recorded. -/
def shouldEnableTools (type : String) (messages : List ChatMsg) : Bool :=
  type == "generate" && !hasToolCall messages

/-- The `tools:` parameter of the first streaming request:
`shouldEnableTools ? tools : undefined`. -/
def toolsParam (type : String) (messages : List ChatMsg) : Option (List String) :=
  if shouldEnableTools type messages then some ["generate_interview"] else none

/-- The `tools:` parameter of the follow-up streaming request issued inside
`experimental_onToolCall` (source line `tools: undefined // Disable tools in
follow-up to prevent loops`). -/
def followUpRequestTools : Option (List String) := none

/-- A tool call as delivered in `toolCallPayload.tools`: the handler reads
`toolCall.func || toolCall.function` (`none` models both fields missing) and
the argument payload, which is either an already-parsed object or a raw string
that `JSON.parse` accepts (`some args`) or rejects (`none`). -/
structure ToolCallIn where
  fn : Option String            -- the function name, if a function field exists
  args : Option (List (String × String))  -- parse result of `fn.arguments`
deriving DecidableEq

/-- Outcome of the `experimental_onToolCall` handler for one matched call. -/
inductive ToolTurnResult where
  /-- `JSON.parse` threw: the error string is returned to the stream and
  nothing is executed or recorded. -/
  | invalidArgs (errText : String) : ToolTurnResult
  /-- `generateInterview` ran (`succeeded` is `result.success`); the
  `appendToolCallMessage` record is appended and a follow-up request with
  `tools: undefined` is issued. -/
  | completed (succeeded : Bool) (record : List ChatMsg) : ToolTurnResult
deriving DecidableEq

/-- The messages `appendToolCallMessage` adds for one executed call: the
assistant message carrying the tool call and the tool message carrying the
outcome string (`output` in the source). -/
def toolCallRecord (output : String) : List ChatMsg :=
  [⟨"assistant", "", some ["generate_interview"]⟩, ⟨"tool", output, none⟩]

/-- The body of `experimental_onToolCall` for one tool call whose `fn` field
exists: parse failure returns the error string; otherwise `generateInterview`
is invoked (its success is the `execSuccess` oracle, the collaborator being
external) and the outcome string is recorded. -/
def runToolCall (execSuccess : Bool) (tc : ToolCallIn) : Option ToolTurnResult :=
  match tc.fn with
  | none => none                       -- `if (!fn) continue;`
  | some name =>
    if name == "generate_interview" then
      match tc.args with
      | none => some (.invalidArgs "Error: Invalid tool arguments generated by AI.")
      | some _ =>
        let output := if execSuccess then "Interview generated successfully."
                      else "Error generating interview."
        some (.completed execSuccess (toolCallRecord output))
    else none

/-- The `for (const toolCall of toolCallPayload.tools)` loop: skips calls with
no function field or a different name, returns at the first
`generate_interview` call. -/
def onToolCallLoop (execSuccess : Bool) : List ToolCallIn → Option ToolTurnResult
  | [] => none
  | tc :: rest =>
    match runToolCall execSuccess tc with
    | some r => some r
    | none => onToolCallLoop execSuccess rest

/-- Whether a turn result actually executed the side-effecting collaborator. -/
def turnExecuted : Option ToolTurnResult → Bool
  | some (.completed _ _) => true
  | _ => false

/-- The messages a turn adds to the conversation record. -/
def turnRecord : Option ToolTurnResult → List ChatMsg
  | some (.completed _ r) => r
  | _ => []

/-- Multi-turn session trace: each element of `requests` says whether the
model asks for the `generate_interview` tool on that turn.  The tool executes
only when the route handler offered it (`shouldEnableTools`); an executed call
is recorded in the history (the `appendToolCallMessage` record with the
outcome of that execution, successes and failures alike).  Returns the number
of executions of the side-effecting collaborator. -/
def runTurns (type : String) (history : List ChatMsg) : List Bool → Nat
  | [] => 0
  | req :: rest =>
    if shouldEnableTools type history && req then
      1 + runTurns type (history ++ toolCallRecord "Interview generated successfully.") rest
    else
      runTurns type history rest

/-- Spec-side notion, following the spec's words: the history records a
*successful* invocation of the tool — a TOOL message whose outcome string is
the success string. -/
def recordsSuccessfulCall (messages : List ChatMsg) : Bool :=
  messages.any fun m =>
    m.role == "tool" && m.content == "Interview generated successfully."

lemma hasToolCall_append (l₁ l₂ : List ChatMsg) :
    hasToolCall (l₁ ++ l₂) = (hasToolCall l₁ || hasToolCall l₂) := by
  simp [hasToolCall, List.any_append]

lemma hasToolCall_record (output : String) :
    hasToolCall (toolCallRecord output) = true := by
  simp [hasToolCall, toolCallRecord]

lemma runTurns_of_hasToolCall (type : String) (h : List ChatMsg)
    (hh : hasToolCall h = true) : ∀ reqs, runTurns type h reqs = 0 := by
  intro reqs
  induction reqs generalizing h with
  | nil => rfl
  | cons r rest ih =>
    simp [runTurns, shouldEnableTools, hh, ih h hh]

/-! ## Audio capture pipeline: slice forwarding (`ondataavailable`) -/

/-- `WebSocket.readyState` values. -/
inductive WsReadyState where
  | connecting | wsOpen | closing | closed
deriving DecidableEq

/-- The `reader.onload` callback for one encoded slice: the frame is sent only
when the socket is `OPEN` at the moment encoding completes; otherwise the
slice produces nothing — no queue, no error. -/
def sliceForward (readyState : WsReadyState) (base64data : String) : List String :=
  if readyState = .wsOpen then [base64data] else []

/-- Forwarding a whole capture session: each slice is paired with the socket
state observed when its encoding completed. -/
def forwardAll : List (WsReadyState × String) → List String
  | [] => []
  | s :: rest => sliceForward s.1 s.2 ++ forwardAll rest

/-! ## Claim C1 -/

/-- C1: the side-effecting tool is executed at most once per session: across
any sequence of model outputs the execution count is ≤ 1; whenever the prior
conversation records a call of `generate_interview` by an assistant message,
the tool interface is withheld from the completion engine; and the follow-up
streaming request after a tool invocation always withholds the tool
interface. -/
theorem c1_tool_executed_at_most_once :
    (∀ (type : String) (history : List ChatMsg) (requests : List Bool),
        runTurns type history requests ≤ 1) ∧
    (∀ (type : String) (messages : List ChatMsg),
        hasToolCall messages = true → toolsParam type messages = none) ∧
    followUpRequestTools = none := by
  refine ⟨?_, ?_, rfl⟩
  · intro type history requests
    induction requests generalizing history with
    | nil => simp [runTurns]
    | cons r rest ih =>
      by_cases h : shouldEnableTools type history && r
      · have hrec : hasToolCall
            (history ++ toolCallRecord "Interview generated successfully.") = true := by
          simp [hasToolCall_append, hasToolCall_record]
        simp [runTurns, h, runTurns_of_hasToolCall _ _ hrec]
      · simpa [runTurns, h] using ih history
  · intro type messages h
    simp [toolsParam, shouldEnableTools, h]

/-- Witness for C1: a history whose assistant message records the tool call
makes the handler withhold the tool interface. -/
theorem c1_witness :
    toolsParam "generate" [⟨"assistant", "", some ["generate_interview"]⟩] = none :=
  c1_tool_executed_at_most_once.2.1 "generate"
    [⟨"assistant", "", some ["generate_interview"]⟩] (by decide)

/-! ## Claim C2 -/

/-- C2 counterexample: a history recording an *executed-but-failed* invocation
(the exact record the handler appends when `generateInterview` returns
`success: false`) already makes `hasToolCall` true, so the tool is marked as
invoked and withheld although no successful invocation was ever recorded.
This refutes "the tool is marked as invoked (and thus withheld) only if a
prior turn recorded a successful invocation". -/
theorem c2_counterexample :
    runToolCall false ⟨some "generate_interview", some [("role", "SWE")]⟩
      = some (.completed false (toolCallRecord "Error generating interview.")) ∧
    hasToolCall (toolCallRecord "Error generating interview.") = true ∧
    recordsSuccessfulCall (toolCallRecord "Error generating interview.") = false ∧
    toolsParam "generate" (toolCallRecord "Error generating interview.") = none := by
  refine ⟨rfl, by decide, by decide, by decide⟩

/-- C2 amended: after a malformed-payload turn the handler executes nothing
and records nothing, so the tool stays eligible; but the tool is marked as
invoked (and withheld) whenever a prior assistant message records a call to
it, regardless of whether the execution succeeded — withholding keys on the
recorded call, not on its success. -/
theorem c2_invoked_marking :
    (∀ (success : Bool) (tc : ToolCallIn),
        tc.fn = some "generate_interview" → tc.args = none →
        runToolCall success tc
            = some (.invalidArgs "Error: Invalid tool arguments generated by AI.") ∧
        turnExecuted (runToolCall success tc) = false ∧
        turnRecord (runToolCall success tc) = []) ∧
    (∀ (history : List ChatMsg) (success : Bool) (tc : ToolCallIn),
        tc.args = none →
        shouldEnableTools "generate" (history ++ turnRecord (runToolCall success tc))
          = shouldEnableTools "generate" history) ∧
    (∀ (history : List ChatMsg) (output : String),
        toolsParam "generate" (history ++ toolCallRecord output) = none) := by
  refine ⟨?_, ?_, ?_⟩
  · intro success tc hfn hargs
    obtain ⟨fn, args⟩ := tc
    cases hfn; cases hargs
    exact ⟨rfl, rfl, rfl⟩
  · intro history success tc hargs
    obtain ⟨fn, args⟩ := tc
    cases hargs
    cases fn with
    | none => simp [runToolCall, turnRecord]
    | some name =>
      by_cases h : name == "generate_interview" <;>
        simp [runToolCall, h, turnRecord]
  · intro history output
    simp [toolsParam, shouldEnableTools, hasToolCall_append, hasToolCall_record]

/-- Witness for C2: the malformed-payload branch at a concrete call. -/
theorem c2_witness :
    runToolCall true ⟨some "generate_interview", none⟩
        = some (.invalidArgs "Error: Invalid tool arguments generated by AI.") ∧
    turnExecuted (runToolCall true ⟨some "generate_interview", none⟩) = false ∧
    turnRecord (runToolCall true ⟨some "generate_interview", none⟩) = [] :=
  c2_invoked_marking.1 true ⟨some "generate_interview", none⟩ rfl rfl

/-! ## Claim C10 -/

/-- C10: a slice whose encoding completes while the channel is not OPEN is
silently dropped — it contributes nothing to the outbound frame sequence and
raises no error — and the forwarded frames are exactly the slices whose
encoding completed while the channel was OPEN, in order. -/
theorem c10_slices_dropped_unless_open :
    (∀ slices : List (WsReadyState × String),
        forwardAll slices = (slices.filter (fun s => s.1 = .wsOpen)).map Prod.snd) ∧
    (∀ (rs : WsReadyState) (d : String), rs ≠ .wsOpen → sliceForward rs d = []) := by
  constructor
  · intro slices
    induction slices with
    | nil => rfl
    | cons s rest ih =>
      by_cases h : s.1 = WsReadyState.wsOpen <;>
        simp [forwardAll, sliceForward, h, ih]
  · intro rs d h
    simp [sliceForward, h]

/-- Witness for C10: a slice completing while the socket is CLOSED produces
no frame. -/
theorem c10_witness : sliceForward .closed "AAAA" = [] :=
  c10_slices_dropped_unless_open.2 .closed "AAAA" (by decide)

/-! ## Character-level strings: JS string operations used by the segmenter -/

/-- Strings manipulated character-wise are embedded as `List Char`. -/
abbrev Str := List Char

/-- The whitespace characters relevant to `String.prototype.trim` for the
texts this program handles. -/
def isWSChar (c : Char) : Bool :=
  c == ' ' || c == '\t' || c == '\n' || c == '\r'

/-- Leading-whitespace removal. -/
def trimLeftStr (s : Str) : Str := s.dropWhile isWSChar

/-- Trailing-whitespace removal. -/
def trimRightStr (s : Str) : Str := (s.reverse.dropWhile isWSChar).reverse

/-- JS `s.trim()`. -/
def trimStr (s : Str) : Str := trimRightStr (trimLeftStr s)

/-- A text with no leading or trailing whitespace and at least one character:
exactly the texts on which trimming is the identity. -/
def cleanText (s : Str) : Prop :=
  s ≠ [] ∧ s.dropWhile isWSChar = s ∧ s.reverse.dropWhile isWSChar = s.reverse

instance (s : Str) : Decidable (cleanText s) := by
  unfold cleanText; infer_instance

lemma length_dropWhile_le' (p : Char → Bool) (l : Str) :
    (l.dropWhile p).length ≤ l.length := by
  induction l with
  | nil => simp [List.dropWhile]
  | cons c t ih =>
    by_cases h : p c
    · simp only [List.dropWhile_cons_of_pos h]
      exact ih.trans (Nat.le_succ _)
    · simp [List.dropWhile_cons_of_neg h]

lemma head_not_ws_of_dropWhile_self {c : Char} {t : Str}
    (h : (c :: t).dropWhile isWSChar = c :: t) : isWSChar c = false := by
  by_cases hc : isWSChar c
  · exfalso
    rw [List.dropWhile_cons_of_pos hc] at h
    have := length_dropWhile_le' isWSChar t
    rw [h] at this
    simp at this
  · simpa using hc

lemma dropWhile_self_of_head {c : Char} (t : Str) (h : isWSChar c = false) :
    (c :: t).dropWhile isWSChar = c :: t :=
  List.dropWhile_cons_of_neg (by simp [h])

/-- A clean text keeps `trimStr` the identity. -/
lemma trimStr_clean {s : Str} (h : cleanText s) : trimStr s = s := by
  obtain ⟨-, hl, hr⟩ := h
  simp [trimStr, trimLeftStr, trimRightStr, hl, hr]

lemma cleanText_ne_nil {s : Str} (h : cleanText s) : s ≠ [] := h.1

/-- Prefixing whitespace does not change the trimmed value. -/
lemma trimStr_ws_cons {c : Char} (s : Str) (h : isWSChar c = true) :
    trimStr (c :: s) = trimStr s := by
  simp [trimStr, trimLeftStr, List.dropWhile_cons_of_pos h]

/-- Appending after a clean text keeps the head stable under `trimLeftStr`. -/
lemma trimLeft_clean_append {t : Str} (s : Str) (h : cleanText t) :
    (t ++ s).dropWhile isWSChar = t ++ s := by
  obtain ⟨hne, hl, -⟩ := h
  cases t with
  | nil => exact absurd rfl hne
  | cons c t0 =>
    exact dropWhile_self_of_head _ (head_not_ws_of_dropWhile_self hl)

/-- Prepending before a clean text keeps the last character stable under
right trimming. -/
lemma trimRight_append_clean {t : Str} (s : Str) (h : cleanText t) :
    ((s ++ t).reverse).dropWhile isWSChar = (s ++ t).reverse := by
  obtain ⟨hne, -, hr⟩ := h
  rw [List.reverse_append]
  cases hrev : t.reverse with
  | nil => exact absurd (by simpa using hrev) hne
  | cons c r =>
    rw [hrev] at hr
    have hc := head_not_ws_of_dropWhile_self hr
    exact dropWhile_self_of_head _ hc

/-! ## Speech synthesis sequencer (`playTTS`) -/

/-- Observable audio state: `audioRef` holds the clip id of the last audio
element stored in the ref; `audible` lists the clips currently playing. -/
structure TtsState where
  audioRef : Option Nat
  audible : List Nat
deriving DecidableEq

/-- The two externally visible steps of one `playTTS(text)` call, identified
by a clip id: first the call pauses whatever element `audioRef` currently
holds; then — after the synthesis fetch resolves — it stores its own element
in `audioRef` and starts playback.  Between the two steps the call is
suspended at `await fetch`, so steps of concurrent calls interleave. -/
inductive TtsStep where
  | pauseStep | playStep
deriving DecidableEq

/-- Effect of one step of call `clip` on the audio state. -/
def ttsDo (st : TtsState) (clip : Nat) : TtsStep → TtsState
  | .pauseStep =>
    match st.audioRef with
    | some c => { st with audible := st.audible.erase c }
    | none => st
  | .playStep => { audioRef := some clip, audible := st.audible ++ [clip] }

/-- Run a schedule (an interleaving of the steps of several calls). -/
def runTts (st : TtsState) : List (Nat × TtsStep) → TtsState
  | [] => st
  | s :: rest => runTts (ttsDo st s.1 s.2) rest

/-! ## Claim C6 -/

/-- C6 counterexample: two `playTTS` calls in quick succession — the second
call's pause runs while the first call's synthesis fetch is still in flight
(schedule: pause₀, pause₁, play₀, play₁).  The first clip is never stopped and
both clips end up audible simultaneously, refuting "no two clips are ever
audible simultaneously". -/
theorem c6_counterexample :
    runTts ⟨none, []⟩
        [(0, .pauseStep), (1, .pauseStep), (0, .playStep), (1, .playStep)]
      = ⟨some 1, [0, 1]⟩ ∧
    (runTts ⟨none, []⟩
        [(0, .pauseStep), (1, .pauseStep), (0, .playStep), (1, .playStep)]).audible.length
      = 2 := by
  refine ⟨rfl, rfl⟩

/-- C6 amended: starting a new playback stops only the clip currently stored
in `audioRef`.  When the second call begins after the first clip has started
playing (sequential schedule), only the second clip is audible at the end; but
a clip whose synthesis is still in flight is not preempted, so two calls whose
synthesis windows overlap both end up audible. -/
theorem c6_preemption :
    (∀ (prev a b : Nat) (st : TtsState),
        st.audioRef = some prev → st.audible = [prev] →
        runTts st [(a, .pauseStep), (a, .playStep), (b, .pauseStep), (b, .playStep)]
          = ⟨some b, [b]⟩) ∧
    (∀ a b : Nat,
        (runTts ⟨none, []⟩
            [(a, .pauseStep), (b, .pauseStep), (a, .playStep), (b, .playStep)]).audible
          = [a, b]) := by
  constructor
  · intro prev a b st href haud
    simp [runTts, ttsDo, href, haud, List.erase_cons]
  · intro a b
    simp [runTts, ttsDo]

/-- Witness for C6: sequential calls from a state with clip 7 playing leave
only the second new clip audible. -/
theorem c6_witness :
    runTts ⟨some 7, [7]⟩
        [(0, .pauseStep), (0, .playStep), (1, .pauseStep), (1, .playStep)]
      = ⟨some 1, [1]⟩ :=
  c6_preemption.1 7 0 1 ⟨some 7, [7]⟩ rfl rfl

/-! ## TTS trigger effect (`useEffect` over `messages`/`isLoading`) -/

/-- A conversation message as the `Agent` component sees it. -/
structure UiMsg where
  role : String
  content : Str
deriving DecidableEq

/-- One run of the TTS-trigger effect: looks at the last message; if it is an
assistant message with truthy content, and loading has completed, and the
content differs from `lastSpokenMessageRef`, it updates the ref and calls
`playTTS`.  Returns the new ref value and whether `playTTS` was called. -/
def ttsTrigger (lastSpoken : Str) (messages : List UiMsg) (isLoading : Bool) :
    Str × Bool :=
  match messages.getLast? with
  | none => (lastSpoken, false)
  | some last =>
    if last.role == "assistant" && !(last.content == ([] : Str)) then
      if !isLoading && !(last.content == lastSpoken) then
        (last.content, true)
      else (lastSpoken, false)
    else (lastSpoken, false)

/-- Whether `playTTS(text)` reaches the synthesis fetch: the guard returns
early on empty or whitespace-only text. -/
def playTTSRequests (text : Str) : Bool :=
  !(text == ([] : Str) || trimStr text == ([] : Str))

/-- Fold the effect over a sequence of observed `(messages, isLoading)`
snapshots, collecting the texts handed to `playTTS`. -/
def runTtsEffects (lastSpoken : Str) :
    List (List UiMsg × Bool) → Str × List Str
  | [] => (lastSpoken, [])
  | v :: rest =>
    let r := ttsTrigger lastSpoken v.1 v.2
    let q := runTtsEffects r.1 rest
    (q.1, (if r.2 then [r.1] else []) ++ q.2)

/-! ## Claim C7 -/

/-- C7 counterexample: `lastSpokenMessageRef` only remembers the most recent
spoken text, so a final assistant text that reappears after a different text
was spoken is spoken again: over the snapshots A, B, A (each observed with
loading complete) the text "A" is handed to `playTTS` twice, refuting "each
distinct final assistant text is spoken at most once". -/
theorem c7_counterexample :
    (runTtsEffects []
        [([⟨"assistant", ['A']⟩], false),
         ([⟨"assistant", ['A']⟩, ⟨"user", ['u']⟩, ⟨"assistant", ['B']⟩], false),
         ([⟨"assistant", ['A']⟩, ⟨"user", ['u']⟩, ⟨"assistant", ['B']⟩,
           ⟨"user", ['v']⟩, ⟨"assistant", ['A']⟩], false)]).2
      = [['A'], ['B'], ['A']] ∧
    ((runTtsEffects []
        [([⟨"assistant", ['A']⟩], false),
         ([⟨"assistant", ['A']⟩, ⟨"user", ['u']⟩, ⟨"assistant", ['B']⟩], false),
         ([⟨"assistant", ['A']⟩, ⟨"user", ['u']⟩, ⟨"assistant", ['B']⟩,
           ⟨"user", ['v']⟩, ⟨"assistant", ['A']⟩], false)]).2.count ['A'])
      = 2 := by
  refine ⟨by decide, by decide⟩

lemma ttsTrigger_snd_true {lastSpoken : Str} {messages : List UiMsg}
    {isLoading : Bool} (h : (ttsTrigger lastSpoken messages isLoading).2 = true) :
    ∃ last, messages.getLast? = some last ∧ last.role = "assistant" ∧
      last.content ≠ [] ∧ isLoading = false ∧ last.content ≠ lastSpoken ∧
      (ttsTrigger lastSpoken messages isLoading).1 = last.content := by
  unfold ttsTrigger at h ⊢
  cases hl : messages.getLast? with
  | none => simp [hl] at h
  | some last =>
    simp only [hl] at h ⊢
    by_cases h1 : (last.role == "assistant" && !(last.content == ([] : Str))) = true
    · rw [if_pos h1] at h ⊢
      by_cases h2 : (!isLoading && !(last.content == lastSpoken)) = true
      · rw [if_pos h2]
        rw [Bool.and_eq_true] at h1 h2
        refine ⟨last, rfl, by simpa using h1.1, by simpa using h1.2,
          by simpa using h2.1, by simpa using h2.2, rfl⟩
      · rw [if_neg h2] at h
        exact absurd h (by simp)
    · rw [if_neg h1] at h
      exact absurd h (by simp)

lemma ttsTrigger_self_no_retrigger {messages : List UiMsg} {isLoading : Bool}
    {last : UiMsg} (hl : messages.getLast? = some last)
    (hrole : last.role = "assistant") (hc : last.content ≠ []) :
    ttsTrigger last.content messages isLoading = (last.content, false) := by
  unfold ttsTrigger
  simp [hl, hrole, hc]

/-- C7 amended: `playTTS` is triggered only when the turn's streaming has
completed (`isLoading = false`) and the last message is an assistant message
with non-empty content that differs from the last spoken content; once a text
is spoken the ref equals it, so the same snapshot does not trigger again
(consecutive duplicates are spoken once — but a text recurring after a
different spoken text is spoken again); and `playTTS` performs no synthesis
request for empty or whitespace-only text. -/
theorem c7_trigger_conditions :
    (∀ (lastSpoken : Str) (messages : List UiMsg) (isLoading : Bool),
        (ttsTrigger lastSpoken messages isLoading).2 = true →
        isLoading = false ∧
        ∃ last, messages.getLast? = some last ∧
          last.role = "assistant" ∧ last.content ≠ [] ∧
          last.content ≠ lastSpoken ∧
          (ttsTrigger lastSpoken messages isLoading).1 = last.content) ∧
    (∀ (lastSpoken : Str) (messages : List UiMsg) (isLoading : Bool),
        (ttsTrigger lastSpoken messages isLoading).2 = true →
        ttsTrigger (ttsTrigger lastSpoken messages isLoading).1 messages isLoading
          = ((ttsTrigger lastSpoken messages isLoading).1, false)) ∧
    (∀ text : Str, text = [] ∨ trimStr text = [] → playTTSRequests text = false) := by
  refine ⟨?_, ?_, ?_⟩
  · intro lastSpoken messages isLoading h
    obtain ⟨last, hl, hrole, hc, hload, hne, hfst⟩ := ttsTrigger_snd_true h
    exact ⟨hload, last, hl, hrole, hc, hne, hfst⟩
  · intro lastSpoken messages isLoading h
    obtain ⟨last, hl, hrole, hc, hload, hne, hfst⟩ := ttsTrigger_snd_true h
    rw [hfst]
    exact ttsTrigger_self_no_retrigger hl hrole hc
  · intro text h
    rcases h with h | h <;> simp [playTTSRequests, h]

/-- Witness for C7: the no-retrigger clause at a concrete triggering
snapshot, and the whitespace guard at a concrete whitespace text. -/
theorem c7_witness :
    ttsTrigger (ttsTrigger [] [⟨"assistant", ['H', 'i']⟩] false).1
        [⟨"assistant", ['H', 'i']⟩] false
      = ((ttsTrigger [] [⟨"assistant", ['H', 'i']⟩] false).1, false) ∧
    playTTSRequests [' ', ' '] = false :=
  ⟨c7_trigger_conditions.2.1 [] [⟨"assistant", ['H', 'i']⟩] false (by decide),
   c7_trigger_conditions.2.2 [' ', ' '] (Or.inr (by decide))⟩

/-! ## Call session state machine (`Agent` component)

The component is embedded with React closure semantics: `handleCall` creates
the socket handlers in the render whose `callStatus`/`messages` constants it
closed over, so those handlers keep seeing the values captured at creation
time (`capturedStatus`, `capturedMsgs`), while `setCallStatus`/`append`
update the current state.  Refs (`accumulatedTextRef`, `silenceTimeoutRef`)
are stable and always current. -/

inductive CallStatus where
  | INACTIVE | CONNECTING | ACTIVE | FINISHED
deriving DecidableEq

structure AgentSt where
  callStatus : CallStatus          -- current React state
  socketExists : Bool              -- socketRef.current != null
  socketOpen : Bool
  capturedStatus : Option CallStatus  -- `callStatus` closed over by the socket handlers
  capturedMsgs : List UiMsg           -- `messages` closed over by the socket handlers
  messages : List UiMsg            -- current useChat messages
  pendingText : Str                -- accumulatedTextRef.current
  timerSet : Bool                  -- silenceTimeoutRef.current != null
  feedbackCalls : Nat              -- number of createFeedback invocations
  alerted : Bool                   -- a user-visible alert was shown
  connectAttempts : Nat            -- number of token/channel connection attempts
deriving DecidableEq

def initAgent : AgentSt :=
  ⟨.INACTIVE, false, false, none, [], [], [], false, 0, false, 0⟩

/-- `handleDisconnect`, parametrised by the `callStatus`/`messages` view the
invoking closure sees: invokes the transcript hand-off when the viewed status
is ACTIVE or CONNECTING, the mode is INTERVIEW and the viewed conversation is
non-empty; then sets FINISHED and closes the socket.  It does *not* touch
`silenceTimeoutRef` or `accumulatedTextRef`. -/
def disconnectProc (type : String) (viewStatus : CallStatus)
    (viewMsgs : List UiMsg) (st : AgentSt) : AgentSt :=
  let st1 :=
    if viewStatus = .ACTIVE ∨ viewStatus = .CONNECTING then
      if type ≠ "generate" ∧ viewMsgs.length > 0 then
        { st with feedbackCalls := st.feedbackCalls + 1 }
      else st   -- `else if (type === "generate") router.push("/")`: no hand-off
    else st
  { st1 with callStatus := .FINISHED, socketExists := false, socketOpen := false }

/-- The greeting message `append({role: "user", content: "Hello"})`. -/
def greetingMsg : UiMsg := ⟨"user", ['H', 'e', 'l', 'l', 'o']⟩

/-- External events driving the component. -/
inductive AgentEv where
  /-- The Call button (rendered only while not ACTIVE); `tokenOk` is the
  outcome of the token fetch. -/
  | clickCall (tokenOk : Bool)
  /-- `socket.onopen`. -/
  | socketOpened
  /-- `socket.onmessage` with a `FinalTranscript`. -/
  | finalTranscript (text : Str)
  /-- A completed assistant reply from the completion stream. -/
  | assistantReply (text : Str)
  /-- The 3000 ms silence timeout fires. -/
  | timerFire
  /-- The End button (rendered only while ACTIVE). -/
  | clickEnd
  /-- `socket.onclose`. -/
  | socketClosed
deriving DecidableEq

def agentStep (type : String) (st : AgentSt) : AgentEv → AgentSt
  | .clickCall tokenOk =>
    if st.callStatus = .ACTIVE then st
    else if tokenOk then
      -- setCallStatus(CONNECTING); socket created; handlers capture this
      -- render's `callStatus` and `messages`
      { st with callStatus := .CONNECTING,
                connectAttempts := st.connectAttempts + 1,
                socketExists := true, socketOpen := false,
                capturedStatus := some st.callStatus,
                capturedMsgs := st.messages }
    else
      -- catch: setCallStatus(INACTIVE); alert("Error starting call. ...")
      { st with callStatus := .INACTIVE,
                connectAttempts := st.connectAttempts + 1,
                alerted := true }
  | .socketOpened =>
    if st.socketExists ∧ ¬ st.socketOpen then
      let st1 := { st with socketOpen := true, callStatus := .ACTIVE }
      if st.capturedMsgs.isEmpty then
        { st1 with messages := st1.messages ++ [greetingMsg] }
      else st1
    else st
  | .finalTranscript text =>
    if st.socketOpen then
      if trimStr text ≠ [] then
        { st with pendingText := st.pendingText ++ ' ' :: text, timerSet := true }
      else st
    else st
  | .assistantReply text =>
    { st with messages := st.messages ++ [⟨"assistant", text⟩] }
  | .timerFire =>
    if st.timerSet then
      let full := trimStr st.pendingText
      if full ≠ [] then
        { st with timerSet := false, pendingText := [],
                  messages := st.messages ++ [⟨"user", full⟩] }
      else { st with timerSet := false }
    else st
  | .clickEnd =>
    if st.callStatus = .ACTIVE then
      disconnectProc type st.callStatus st.messages st
    else st
  | .socketClosed =>
    if st.socketExists then
      let st1 := { st with socketExists := false, socketOpen := false }
      if st.capturedStatus = some .ACTIVE then
        -- the stale `handleDisconnect` closure: it sees the captured views
        disconnectProc type .ACTIVE st.capturedMsgs st1
      else st1
    else st

def runAgent (type : String) (evts : List AgentEv) : AgentSt :=
  evts.foldl (agentStep type) initAgent

/-- Spec-side notion, following the spec's words: at least one USER/ASSISTANT
exchange occurred in the conversation. -/
def exchangeOccurred (msgs : List UiMsg) : Bool :=
  msgs.any (fun m => m.role == "user") && msgs.any (fun m => m.role == "assistant")

lemma disconnectProc_capturedStatus (type : String) (v : CallStatus)
    (m : List UiMsg) (st : AgentSt) :
    (disconnectProc type v m st).capturedStatus = st.capturedStatus := by
  unfold disconnectProc; split_ifs <;> simp

lemma disconnectProc_timerSet (type : String) (v : CallStatus)
    (m : List UiMsg) (st : AgentSt) :
    (disconnectProc type v m st).timerSet = st.timerSet := by
  unfold disconnectProc; split_ifs <;> simp

lemma disconnectProc_pendingText (type : String) (v : CallStatus)
    (m : List UiMsg) (st : AgentSt) :
    (disconnectProc type v m st).pendingText = st.pendingText := by
  unfold disconnectProc; split_ifs <;> simp

lemma disconnectProc_messages (type : String) (v : CallStatus)
    (m : List UiMsg) (st : AgentSt) :
    (disconnectProc type v m st).messages = st.messages := by
  unfold disconnectProc; split_ifs <;> simp

lemma disconnectProc_callStatus (type : String) (v : CallStatus)
    (m : List UiMsg) (st : AgentSt) :
    (disconnectProc type v m st).callStatus = .FINISHED := by
  unfold disconnectProc; split_ifs <;> simp

lemma disconnectProc_feedbackCalls (type : String) (v : CallStatus)
    (m : List UiMsg) (st : AgentSt) :
    (disconnectProc type v m st).feedbackCalls
      = st.feedbackCalls
        + (if (v = .ACTIVE ∨ v = .CONNECTING) ∧ type ≠ "generate" ∧ m.length > 0
           then 1 else 0) := by
  unfold disconnectProc
  split_ifs with h1 h2 h3 <;> simp_all

/-- The socket handler closures never capture an ACTIVE status: the Call
button is rendered only while the status is not ACTIVE, and `handleCall`
captures the render's status before `setCallStatus(CONNECTING)` runs. -/
lemma capturedStatus_invariant (type : String) :
    ∀ (evts : List AgentEv), (runAgent type evts).capturedStatus ≠ some .ACTIVE := by
  have step : ∀ (st : AgentSt) (e : AgentEv), st.capturedStatus ≠ some .ACTIVE →
      (agentStep type st e).capturedStatus ≠ some .ACTIVE := by
    intro st e h
    cases e <;> simp only [agentStep] <;> (try split_ifs) <;>
      simp_all [disconnectProc_capturedStatus]
  intro evts
  induction evts using List.reverseRecOn with
  | nil => simp [runAgent, initAgent]
  | append_singleton l e ih =>
    rw [runAgent, List.foldl_append] at *
    exact step _ e ih

lemma disconnectProc_connectAttempts (type : String) (v : CallStatus)
    (m : List UiMsg) (st : AgentSt) :
    (disconnectProc type v m st).connectAttempts = st.connectAttempts := by
  unfold disconnectProc; split_ifs <;> simp

/-- For any state whose socket closures did not capture ACTIVE (an invariant
of every reachable state), `socket.onclose` only clears the socket: the stale
`callStatus` comparison never invokes `handleDisconnect`. -/
lemma socketClosed_no_disconnect (type : String) (st : AgentSt)
    (h : st.capturedStatus ≠ some .ACTIVE) :
    (agentStep type st .socketClosed).callStatus = st.callStatus ∧
    (agentStep type st .socketClosed).feedbackCalls = st.feedbackCalls ∧
    (agentStep type st .socketClosed).messages = st.messages := by
  simp only [agentStep]
  by_cases h1 : st.socketExists = true
  · simp [h1, h]
  · simp [h1]

/-! ## Claim C4 -/

/-- C4: the `onclose` handler compares the `callStatus` captured when
`handleCall` created it — a value that is never ACTIVE — so a channel close
never triggers the shutdown protocol: over every event trace, a
`socket.onclose` event leaves `callStatus` and the hand-off count unchanged;
in particular, after the channel closes unexpectedly while the session is
ACTIVE, the session stays ACTIVE instead of transitioning to FINISHED. -/
theorem c4_onclose_stale_status :
    (∀ (type : String) (evts : List AgentEv),
        (runAgent type (evts ++ [.socketClosed])).callStatus
            = (runAgent type evts).callStatus ∧
        (runAgent type (evts ++ [.socketClosed])).feedbackCalls
            = (runAgent type evts).feedbackCalls) ∧
    (runAgent "interview" [.clickCall true, .socketOpened]).callStatus = .ACTIVE ∧
    (runAgent "interview"
        [.clickCall true, .socketOpened, .socketClosed]).callStatus = .ACTIVE ∧
    (runAgent "interview"
        [.clickCall true, .socketOpened, .socketClosed]).callStatus ≠ .FINISHED := by
  refine ⟨?_, by decide, by decide, by decide⟩
  intro type evts
  have hrw : runAgent type (evts ++ [AgentEv.socketClosed])
      = agentStep type (runAgent type evts) .socketClosed := by
    simp [runAgent, List.foldl_append]
  have h := socketClosed_no_disconnect type (runAgent type evts)
    (capturedStatus_invariant type evts)
  rw [hrw]
  exact ⟨h.1, h.2.1⟩

/-! ## Claim C5 -/

/-- C5 counterexample: the shutdown protocol does not cancel the silence
timer.  After an explicit disconnect (End click) with text pending, the
session is FINISHED with the greeting as the only message; the still-armed
timer then fires and appends the pending text as a USER Message — the pending
text is emitted after FINISHED, not discarded. -/
theorem c5_counterexample :
    (runAgent "generate"
        [.clickCall true, .socketOpened, .finalTranscript ['b', 'y', 'e'],
         .clickEnd]).callStatus = .FINISHED ∧
    (runAgent "generate"
        [.clickCall true, .socketOpened, .finalTranscript ['b', 'y', 'e'],
         .clickEnd]).messages = [greetingMsg] ∧
    (runAgent "generate"
        [.clickCall true, .socketOpened, .finalTranscript ['b', 'y', 'e'],
         .clickEnd, .timerFire]).messages
      = [greetingMsg, ⟨"user", ['b', 'y', 'e']⟩] := by
  refine ⟨by decide, by decide, by decide⟩

/-- C5 amended: `handleDisconnect` leaves `silenceTimeoutRef` and
`accumulatedTextRef` untouched, so pending utterance text survives shutdown;
when the timer fires — in any state, FINISHED included — the pending text is
appended as a USER Message rather than discarded. -/
theorem c5_pending_text_flushes_late :
    (∀ (type : String) (v : CallStatus) (m : List UiMsg) (st : AgentSt),
        (disconnectProc type v m st).timerSet = st.timerSet ∧
        (disconnectProc type v m st).pendingText = st.pendingText) ∧
    (∀ (type : String) (st : AgentSt),
        st.timerSet = true → trimStr st.pendingText ≠ [] →
        (agentStep type st .timerFire).messages
          = st.messages ++ [⟨"user", trimStr st.pendingText⟩]) := by
  constructor
  · intro type v m st
    exact ⟨disconnectProc_timerSet type v m st, disconnectProc_pendingText type v m st⟩
  · intro type st ht hp
    simp [agentStep, ht, hp]

/-- Witness for C5: the timer fires in a FINISHED state and still appends. -/
theorem c5_witness :
    (agentStep "interview"
        ⟨.FINISHED, false, false, some .INACTIVE, [], [greetingMsg],
         [' ', 'b', 'y', 'e'], true, 0, false, 1⟩ .timerFire).messages
      = [greetingMsg] ++ [⟨"user", trimStr [' ', 'b', 'y', 'e']⟩] :=
  c5_pending_text_flushes_late.2 "interview"
    ⟨.FINISHED, false, false, some .INACTIVE, [], [greetingMsg],
     [' ', 'b', 'y', 'e'], true, 0, false, 1⟩ rfl (by decide)

/-! ## Claim C8 -/

/-- C8 counterexample: the channel fails asynchronously (closes before ever
opening).  The status remains CONNECTING — it does not revert to INACTIVE —
and no user-visible alert is raised. -/
theorem c8_counterexample :
    (runAgent "interview" [.clickCall true, .socketClosed]).callStatus
      = .CONNECTING ∧
    (runAgent "interview" [.clickCall true, .socketClosed]).callStatus
      ≠ .INACTIVE ∧
    (runAgent "interview" [.clickCall true, .socketClosed]).alerted = false := by
  refine ⟨by decide, by decide, by decide⟩

/-- C8 amended: when token issuance fails (or the synchronous part of channel
construction throws), the catch block reverts the status to INACTIVE, raises
a user-visible alert, and performs no automatic retry (only a Call click ever
starts a connection attempt); an asynchronous channel-open failure, however,
is only logged — the status stays CONNECTING, no alert is shown, and no retry
occurs either. -/
theorem c8_connection_failure :
    (∀ type : String,
        (runAgent type [.clickCall false]).callStatus = .INACTIVE ∧
        (runAgent type [.clickCall false]).alerted = true ∧
        (runAgent type [.clickCall false]).connectAttempts = 1) ∧
    (∀ (type : String) (st : AgentSt) (e : AgentEv),
        (∀ ok, e ≠ .clickCall ok) →
        (agentStep type st e).connectAttempts = st.connectAttempts) ∧
    (runAgent "interview" [.clickCall true, .socketClosed]).callStatus
      = .CONNECTING ∧
    (runAgent "interview" [.clickCall true, .socketClosed]).alerted = false := by
  refine ⟨?_, ?_, by decide, by decide⟩
  · intro type
    refine ⟨?_, ?_, ?_⟩ <;> simp [runAgent, agentStep, initAgent]
  · intro type st e he
    cases e with
    | clickCall ok => exact absurd rfl (he ok)
    | _ =>
      simp only [agentStep] <;> (try split_ifs) <;>
        simp_all [disconnectProc_connectAttempts]

/-- Witness for C8: a non-click event does not change the attempt count. -/
theorem c8_witness :
    (agentStep "interview" initAgent .socketOpened).connectAttempts
      = initAgent.connectAttempts :=
  c8_connection_failure.2.1 "interview" initAgent .socketOpened (by intro ok; simp)

/-! ## Claim C9 -/

/-- C9 counterexample: in INTERVIEW mode the greeting USER Message is
appended on channel open, so when the session ends before any assistant reply
— no USER/ASSISTANT exchange has occurred — the conversation is nonetheless
non-empty and `createFeedback` *is* invoked, refuting "invoked exactly when
at least one USER/ASSISTANT exchange occurred". -/
theorem c9_counterexample :
    exchangeOccurred
        ((runAgent "interview" [.clickCall true, .socketOpened]).messages)
      = false ∧
    (runAgent "interview"
        [.clickCall true, .socketOpened, .clickEnd]).feedbackCalls = 1 ∧
    (runAgent "interview"
        [.clickCall true, .socketOpened, .clickEnd]).callStatus = .FINISHED := by
  refine ⟨by decide, by decide, by decide⟩

/-- C9 amended: the hand-off is invoked exactly when the disconnecting
closure sees a status of ACTIVE or CONNECTING, the mode is INTERVIEW, and the
conversation it sees contains at least one Message of any role (possibly only
the synthesized greeting, with no USER/ASSISTANT exchange); in SETUP mode the
session reaches FINISHED without ever invoking the hand-off. -/
theorem c9_handoff_condition :
    (∀ (type : String) (v : CallStatus) (m : List UiMsg) (st : AgentSt),
        (disconnectProc type v m st).feedbackCalls
          = st.feedbackCalls
            + (if (v = .ACTIVE ∨ v = .CONNECTING) ∧ type ≠ "generate" ∧ m.length > 0
               then 1 else 0) ∧
        (disconnectProc type v m st).callStatus = .FINISHED) ∧
    (∀ evts : List AgentEv, (runAgent "generate" evts).feedbackCalls = 0) := by
  constructor
  · intro type v m st
    exact ⟨disconnectProc_feedbackCalls type v m st, disconnectProc_callStatus type v m st⟩
  · have step : ∀ (st : AgentSt) (e : AgentEv),
        (agentStep "generate" st e).feedbackCalls = st.feedbackCalls := by
      intro st e
      cases e <;> simp only [agentStep] <;> (try split_ifs) <;>
        simp_all [disconnectProc_feedbackCalls]
    intro evts
    induction evts using List.reverseRecOn with
    | nil => simp [runAgent, initAgent]
    | append_singleton l e ih =>
      rw [runAgent, List.foldl_append] at *
      exact (step _ e).trans ih

/-! ## Utterance segmenter (timed model of `socket.onmessage` + silence timer)

Events are final transcript fragments with arrival timestamps (ms).  The
handler appends `" " + text` to the accumulator for every final fragment with
non-whitespace text and re-arms the 3000 ms silence timer; the timer, when it
fires, emits the trimmed accumulated text as one USER message and clears the
accumulator.  A fragment arriving at or after the armed deadline is preceded
by the timer callback. -/

structure SegState where
  acc : Str
  deadline : Option Nat
deriving DecidableEq

/-- Deliver one final fragment with text `txt` at time `t`: first the pending
silence timeout fires if its deadline has passed, then the fragment is
accumulated (if its trimmed text is non-empty) and the timer re-armed. -/
def segStep (st : SegState) (t : Nat) (txt : Str) : SegState × List Str :=
  let flushed : SegState × List Str :=
    match st.deadline with
    | some d =>
      if d ≤ t then
        if trimStr st.acc ≠ [] then (⟨[], none⟩, [trimStr st.acc])
        else (⟨st.acc, none⟩, [])
      else (st, [])
    | none => (st, [])
  if trimStr txt ≠ [] then
    (⟨flushed.1.acc ++ ' ' :: txt, some (t + 3000)⟩, flushed.2)
  else (flushed.1, flushed.2)

def segGo (st : SegState) : List (Nat × Str) → SegState × List Str
  | [] => (st, [])
  | e :: rest =>
    let p := segStep st e.1 e.2
    let q := segGo p.1 rest
    (q.1, p.2 ++ q.2)

/-- After the last fragment the armed timer eventually fires (the channel
staying open), emitting any pending trimmed text. -/
def segFinish (st : SegState) : List Str :=
  match st.deadline with
  | none => []
  | some _ => if trimStr st.acc ≠ [] then [trimStr st.acc] else []

/-- Turn (gap, text) pairs into absolutely-timed events: each gap is the
delay since the previous fragment (the first, since session start). -/
def withTimes (t : Nat) : List (Nat × Str) → List (Nat × Str)
  | [] => []
  | f :: rest => (t + f.1, f.2) :: withTimes (t + f.1) rest

/-- The USER messages the segmenter emits for a gap-timed fragment list. -/
def segRun (frags : List (Nat × Str)) : List Str :=
  (segGo ⟨[], none⟩ (withTimes 0 frags)).2
    ++ segFinish (segGo ⟨[], none⟩ (withTimes 0 frags)).1

/-- Spec-side definition, following the spec's words: the space-joined
concatenation of a list of texts. -/
def sjoin : List Str → Str
  | [] => []
  | [t] => t
  | t :: u :: ts => t ++ ' ' :: sjoin (u :: ts)

/-- The accumulator after appending `" " + text` for each text in turn. -/
def accJoin (acc : Str) : List Str → Str
  | [] => acc
  | t :: ts => accJoin (acc ++ ' ' :: t) ts

/-- End time of a gap-timed fragment list started at `t`. -/
def endT (t : Nat) (frags : List (Nat × Str)) : Nat :=
  t + (frags.map Prod.fst).sum

lemma cleanText_append_sep {t s : Str} (ht : cleanText t) (hs : cleanText s) :
    cleanText (t ++ ' ' :: s) := by
  refine ⟨by simp [ht.1], trimLeft_clean_append _ ht, ?_⟩
  have : t ++ ' ' :: s = (t ++ [' ']) ++ s := by simp
  rw [this]
  exact trimRight_append_clean _ hs

lemma cleanText_sjoin : ∀ (ts : List Str), ts ≠ [] →
    (∀ t ∈ ts, cleanText t) → cleanText (sjoin ts) := by
  intro ts
  induction ts with
  | nil => intro h; exact absurd rfl h
  | cons t rest ih =>
    intro _ hall
    cases rest with
    | nil => exact hall t (by simp)
    | cons u ts2 =>
      rw [sjoin]
      exact cleanText_append_sep (hall t (by simp))
        (ih (by simp) (fun x hx => hall x (List.mem_cons_of_mem _ hx)))

lemma trimStr_space_sjoin {ts : List Str} (hne : ts ≠ [])
    (hall : ∀ t ∈ ts, cleanText t) :
    trimStr (' ' :: sjoin ts) = sjoin ts := by
  rw [trimStr_ws_cons _ (by decide)]
  exact trimStr_clean (cleanText_sjoin ts hne hall)

lemma accJoin_append (ts : List Str) :
    ∀ acc : Str, accJoin acc ts = acc ++ accJoin [] ts := by
  induction ts with
  | nil => intro acc; simp [accJoin]
  | cons t rest ih =>
    intro acc
    rw [accJoin, ih (acc ++ ' ' :: t), accJoin, List.nil_append, ih (' ' :: t)]
    simp

lemma accJoin_nil_sjoin : ∀ (ts : List Str), ts ≠ [] →
    accJoin [] ts = ' ' :: sjoin ts := by
  intro ts
  induction ts with
  | nil => intro h; exact absurd rfl h
  | cons t rest ih =>
    intro _
    cases rest with
    | nil => simp [accJoin, sjoin]
    | cons u ts2 =>
      rw [accJoin, accJoin_append, ih (by simp), sjoin]
      simp

lemma withTimes_append (ys : List (Nat × Str)) :
    ∀ (xs : List (Nat × Str)) (t : Nat),
      withTimes t (xs ++ ys) = withTimes t xs ++ withTimes (endT t xs) ys := by
  intro xs
  induction xs with
  | nil => intro t; simp [withTimes, endT]
  | cons f rest ih =>
    intro t
    rw [List.cons_append, withTimes, withTimes, ih (t + f.1), List.cons_append]
    have : endT (t + f.1) rest = endT t (f :: rest) := by
      simp [endT]; omega
    rw [this]

lemma segGo_append (ys : List (Nat × Str)) :
    ∀ (xs : List (Nat × Str)) (st : SegState),
      segGo st (xs ++ ys)
        = ((segGo (segGo st xs).1 ys).1,
           (segGo st xs).2 ++ (segGo (segGo st xs).1 ys).2) := by
  intro xs
  induction xs with
  | nil => intro st; simp [segGo]
  | cons e rest ih =>
    intro st
    rw [List.cons_append, segGo, ih (segStep st e.1 e.2).1]
    simp [segGo, List.append_assoc]

lemma segGo_cons (st : SegState) (t : Nat) (txt : Str) (rest : List (Nat × Str)) :
    segGo st ((t, txt) :: rest)
      = ((segGo (segStep st t txt).1 rest).1,
         (segStep st t txt).2 ++ (segGo (segStep st t txt).1 rest).2) := by
  simp [segGo]

lemma segStep_first (g : Nat) (s : Str) (hs : trimStr s ≠ []) :
    segStep ⟨[], none⟩ g s = (⟨' ' :: s, some (g + 3000)⟩, []) := by
  simp [segStep, hs]

/-- A fragment arriving before the armed deadline with non-whitespace text:
no flush, the text is appended, the timer re-armed. -/
lemma segStep_beforeDeadline (acc : Str) (d t : Nat) (s : Str)
    (hd : ¬ d ≤ t) (hs : trimStr s ≠ []) :
    segStep ⟨acc, some d⟩ t s = (⟨acc ++ ' ' :: s, some (t + 3000)⟩, []) := by
  simp [segStep, hd, hs]

/-- A fragment arriving at or after the armed deadline with pending text:
the timer fired first, flushing the trimmed accumulator; then the text starts
a fresh accumulator. -/
lemma segStep_afterDeadline (acc : Str) (d t : Nat) (s : Str)
    (hd : d ≤ t) (hacc : trimStr acc ≠ []) (hs : trimStr s ≠ []) :
    segStep ⟨acc, some d⟩ t s = (⟨' ' :: s, some (t + 3000)⟩, [trimStr acc]) := by
  simp [segStep, hd, hacc, hs]

/-- Processing a run of clean fragments whose gaps are all below the silence
window, starting from an armed timer 3000 ms after the previous fragment:
nothing is emitted and every text is appended to the accumulator. -/
lemma segGo_smallGaps :
    ∀ (frags : List (Nat × Str)) (t : Nat) (acc : Str),
      (∀ f ∈ frags, f.1 < 3000 ∧ cleanText f.2) →
      segGo ⟨acc, some (t + 3000)⟩ (withTimes t frags)
        = (⟨accJoin acc (frags.map Prod.snd), some (endT t frags + 3000)⟩, []) := by
  intro frags
  induction frags with
  | nil =>
    intro t acc _
    simp [segGo, withTimes, accJoin, endT]
  | cons f rest ih =>
    intro t acc h
    obtain ⟨hg, hc⟩ := h f (List.mem_cons_self f rest)
    have hfired : ¬ (t + 3000 ≤ t + f.1) := by omega
    have htxt : trimStr f.2 ≠ [] := by
      rw [trimStr_clean hc]; exact hc.1
    have hrest : ∀ x ∈ rest, x.1 < 3000 ∧ cleanText x.2 :=
      fun x hx => h x (List.mem_cons_of_mem f hx)
    rw [withTimes, segGo_cons,
      segStep_beforeDeadline acc (t + 3000) (t + f.1) f.2 hfired htxt]
    simp only [ih (t + f.1) (acc ++ ' ' :: f.2) hrest]
    have hend : endT (t + f.1) rest = endT t (f :: rest) := by
      simp [endT]; omega
    simp [accJoin, hend]

lemma accJoin_space_sjoin (s₀ : Str) (ts : List Str) :
    accJoin (' ' :: s₀) ts = ' ' :: sjoin (s₀ :: ts) := by
  have h1 : accJoin ([] : Str) (s₀ :: ts) = accJoin (' ' :: s₀) ts := by
    rw [accJoin, List.nil_append]
  rw [← h1, accJoin_nil_sjoin _ (by simp)]

/-- Processing a clean first fragment followed by small-gap clean fragments
from the initial state: no output, and the accumulator holds `" " + sjoin`. -/
lemma segGo_prefix (g₀ : Nat) (s₀ : Str) (fr : List (Nat × Str))
    (hc : cleanText s₀) (hfr : ∀ f ∈ fr, f.1 < 3000 ∧ cleanText f.2) :
    segGo ⟨[], none⟩ (withTimes 0 ((g₀, s₀) :: fr))
      = (⟨' ' :: sjoin (s₀ :: fr.map Prod.snd), some (endT (0 + g₀) fr + 3000)⟩,
         []) := by
  have hts : trimStr s₀ ≠ [] := by rw [trimStr_clean hc]; exact hc.1
  rw [withTimes, segGo_cons, segStep_first (0 + g₀) s₀ hts]
  simp only [segGo_smallGaps fr (0 + g₀) (' ' :: s₀) hfr]
  simp [accJoin_space_sjoin]

/-- Processing a gap of at least the silence window followed by small-gap
clean fragments, from a state with pending text and an armed timer: the
pending trimmed text is flushed, and the rest accumulates afresh. -/
lemma segGo_afterFlush (A : Str) (T g : Nat) (s : Str) (fr2 : List (Nat × Str))
    (hg : 3000 ≤ g) (hA : trimStr A ≠ []) (hts : trimStr s ≠ [])
    (hfr2 : ∀ f ∈ fr2, f.1 < 3000 ∧ cleanText f.2) :
    segGo ⟨A, some (T + 3000)⟩ (withTimes T ((g, s) :: fr2))
      = (⟨' ' :: sjoin (s :: fr2.map Prod.snd), some (endT (T + g) fr2 + 3000)⟩,
         [trimStr A]) := by
  have hd : T + 3000 ≤ T + g := by omega
  rw [withTimes, segGo_cons, segStep_afterDeadline A (T + 3000) (T + g) s hd hA hts]
  simp only [segGo_smallGaps fr2 (T + g) (' ' :: s) hfr2]
  simp [accJoin_space_sjoin]

/-! ## Claim C3 -/

/-- C3 counterexample: a single final fragment whose (non-empty) text starts
with a space.  The space-joined concatenation of the fragments' texts is
`" a"`, but the segmenter emits the *trimmed* accumulator `"a"` — so the
emitted USER message is not the space-joined concatenation, refuting the
claim as stated. -/
theorem c3_counterexample :
    segRun [(0, [' ', 'a'])] = [['a']] ∧
    sjoin [[' ', 'a']] = [' ', 'a'] ∧
    ([['a']] : List Str) ≠ [[' ', 'a']] := by
  refine ⟨by decide, by decide, by decide⟩

/-- C3 amended: for final fragments with non-empty texts carrying no leading
or trailing whitespace, (1) if every gap between consecutive fragments is
under 3000 ms the segmenter emits exactly one USER message containing their
space-joined concatenation, and (2) if exactly one gap reaches 3000 ms it
emits two USER messages, split at that gap, each the space-joined
concatenation of its group.  (The first fragment's offset from session start
is arbitrary, and the trailing silence timer is allowed to fire.) -/
theorem c3_segmenter_grouping :
    (∀ (g₀ : Nat) (s₀ : Str) (rest : List (Nat × Str)),
        cleanText s₀ →
        (∀ f ∈ rest, f.1 < 3000 ∧ cleanText f.2) →
        segRun ((g₀, s₀) :: rest) = [sjoin (s₀ :: rest.map Prod.snd)]) ∧
    (∀ (g₀ : Nat) (s₀ : Str) (fr1 : List (Nat × Str)) (g : Nat) (s : Str)
        (fr2 : List (Nat × Str)),
        cleanText s₀ →
        (∀ f ∈ fr1, f.1 < 3000 ∧ cleanText f.2) →
        3000 ≤ g → cleanText s →
        (∀ f ∈ fr2, f.1 < 3000 ∧ cleanText f.2) →
        segRun ((g₀, s₀) :: fr1 ++ (g, s) :: fr2)
          = [sjoin (s₀ :: fr1.map Prod.snd), sjoin (s :: fr2.map Prod.snd)]) := by
  have hallOf : ∀ (s₀ : Str) (fr : List (Nat × Str)), cleanText s₀ →
      (∀ f ∈ fr, f.1 < 3000 ∧ cleanText f.2) →
      ∀ x ∈ s₀ :: fr.map Prod.snd, cleanText x := by
    intro s₀ fr hc hfr x hx
    rcases List.mem_cons.1 hx with rfl | hx
    · exact hc
    · obtain ⟨f, hf, rfl⟩ := List.mem_map.1 hx
      exact (hfr f hf).2
  have hfinish : ∀ (s₀ : Str) (fr : List (Nat × Str)) (d : Nat),
      cleanText s₀ → (∀ f ∈ fr, f.1 < 3000 ∧ cleanText f.2) →
      segFinish ⟨' ' :: sjoin (s₀ :: fr.map Prod.snd), some d⟩
        = [sjoin (s₀ :: fr.map Prod.snd)] := by
    intro s₀ fr d hc hfr
    have hall := hallOf s₀ fr hc hfr
    have ht := @trimStr_space_sjoin (s₀ :: fr.map Prod.snd) (by simp) hall
    have hne : sjoin (s₀ :: fr.map Prod.snd) ≠ [] :=
      (cleanText_sjoin _ (by simp) hall).1
    simp [segFinish, ht, hne]
  constructor
  · intro g₀ s₀ rest hc hrest
    rw [segRun, segGo_prefix g₀ s₀ rest hc hrest]
    simp [hfinish s₀ rest _ hc hrest]
  · intro g₀ s₀ fr1 g s fr2 hc hfr1 hg hcs hfr2
    have hts : trimStr s ≠ [] := by rw [trimStr_clean hcs]; exact hcs.1
    have hall1 := hallOf s₀ fr1 hc hfr1
    have hA : trimStr (' ' :: sjoin (s₀ :: fr1.map Prod.snd)) ≠ [] := by
      rw [trimStr_space_sjoin (by simp) hall1]
      exact (cleanText_sjoin _ (by simp) hall1).1
    have hsplit : (g₀, s₀) :: fr1 ++ (g, s) :: fr2
        = ((g₀, s₀) :: fr1) ++ ((g, s) :: fr2) := rfl
    have hT : endT 0 ((g₀, s₀) :: fr1) = endT (0 + g₀) fr1 := by
      simp [endT]
    rw [segRun, hsplit, withTimes_append, hT,
      segGo_append, segGo_prefix g₀ s₀ fr1 hc hfr1]
    simp only [segGo_afterFlush (' ' :: sjoin (s₀ :: fr1.map Prod.snd))
      (endT (0 + g₀) fr1) g s fr2 hg hA hts hfr2]
    rw [trimStr_space_sjoin (by simp) hall1]
    simp [hfinish s fr2 _ hcs hfr2]

/-- Witness for C3: two fragments 100 ms apart produce the single space-joined
USER message. -/
theorem c3_witness :
    segRun [(0, ['h', 'i']), (100, ['t', 'h', 'e', 'r', 'e'])]
      = [sjoin (['h', 'i'] :: ([(100, ['t', 'h', 'e', 'r', 'e'])].map Prod.snd))] :=
  c3_segmenter_grouping.1 0 ['h', 'i'] [(100, ['t', 'h', 'e', 'r', 'e'])]
    (by decide) (by decide)
